import Mathlib

/-!
# Verification of the trivia API backend (`backend/flaskr/__init__.py`)

Shallow embedding of the Flask request handlers of the trivia application.
The relational store is modelled as an in-memory `Store` (the `models` module
of the repository, which defines the `Question`/`Category` tables, is not part
of the sources; its query/insert/delete operations are modelled from the spec's
data-model section).  Each route handler becomes a pure Lean function from the
store and the parsed request to a response value; Python exceptions that a
handler's `try`/`except` catches are modelled by the corresponding error
branches, and an exception that escapes a handler (there is no `try` in
`get_questions`) is modelled by an explicit `unhandled` response constructor.
-/

/-- A question row, and also the "formatted question" shape
`{id, question, answer, category, difficulty}` (the fields coincide). -/
structure Question where
  id : Int
  question : String
  answer : String
  category : Int
  difficulty : Int
deriving DecidableEq, Repr

/-- A category row: `{id, type}`. -/
structure Category where
  id : Int
  type : String
deriving DecidableEq, Repr

/-- The durable state owned by the relational store. -/
structure Store where
  questions : List Question
  categories : List Category
deriving DecidableEq, Repr

/-- `QUESTIONS_PER_PAGE = 10`. -/
def QUESTIONS_PER_PAGE : Int := 10

/-- Python list slicing `l[a:b]` (step 1): negative indices count from the
end of the list, then both bounds are clamped to `[0, len(l)]`. -/
def pySlice {α : Type} (l : List α) (a b : Int) : List α :=
  let n : Int := l.length
  let a2 : Int := if a < 0 then max (a + n) 0 else min a n
  let b2 : Int := if b < 0 then max (b + n) 0 else min b n
  (l.drop a2.toNat).take (b2 - a2).toNat

/-- Insert a question into a list sorted by ascending id. -/
def insertById (q : Question) : List Question → List Question
  | [] => [q]
  | x :: xs => if q.id ≤ x.id then q :: x :: xs else x :: insertById q xs

/-- `Question.query.order_by(Question.id).all()`: the stored questions in
ascending id order (insertion sort). -/
def sortById (l : List Question) : List Question :=
  l.foldr insertById []

/-- Distinct elements of a list in order of first occurrence (the iteration
order of a Python `Counter`'s keys). -/
def dedupAux (seen : List Int) : List Int → List Int
  | [] => []
  | x :: xs => if x ∈ seen then dedupAux seen xs else x :: dedupAux (x :: seen) xs

/-- `Counter(l).most_common(1)[0][0]`: an element of maximal multiplicity,
ties broken towards the earliest first occurrence; `none` on an empty list
(where Python would raise `IndexError`). -/
def mostCommon (l : List Int) : Option Int :=
  match dedupAux [] l with
  | [] => none
  | d :: ds => some (ds.foldl (fun best x => if l.count x > l.count best then x else best) d)

/-- Lookup in a Python dict built from an association list by comprehension:
a later binding of the same key overwrites an earlier one. -/
def dictLookup (l : List (Int × String)) (k : Int) : Option String :=
  match l with
  | [] => none
  | (k2, v) :: rest =>
    match dictLookup rest k with
    | some v2 => some v2
    | none => if k2 = k then some v else none

/-- Python `str.lower()` (basic latin letters), applied characterwise. -/
def lowerStr (s : String) : String :=
  ⟨s.data.map Char.toLower⟩

/-- `{cat.id: cat.type.lower() for cat in Category.query.all()}`. -/
def catDict (cats : List Category) : List (Int × String) :=
  cats.map (fun c => (c.id, lowerStr c.type))

/-- `get_common_category(categories, questions)`: `""` on an empty question
list, otherwise the label of the most frequent category of the questions.
The dict lookup `categories[...]` raises `KeyError` when that category id is
not a key; the (unreachable) `most_common` of an empty counter would raise
`IndexError`.  Errors are returned as `Except.error`. -/
def get_common_category (categories : List (Int × String)) (questions : List Question) :
    Except String String :=
  if questions = [] then .ok ""
  else
    match mostCommon (questions.map (fun q => q.category)) with
    | none => .error "IndexError"
    | some m =>
      match dictLookup categories m with
      | some label => .ok label
      | none => .error "KeyError"

/-- Response of `GET /questions`.  `unhandled` records an exception escaping
the handler (which has no `try`/`except`). -/
inductive QuestionsResp where
  | ok (questions : List Question) (total_questions : Nat)
      (categories : List (Int × String)) (current_category : String)
  | notFound
  | unhandled (e : String)
deriving DecidableEq, Repr

/-- The `questions` field of a successful `GET /questions` response. -/
def QuestionsResp.pageOf : QuestionsResp → Option (List Question)
  | .ok qs _ _ _ => some qs
  | _ => none

/-- The `total_questions` field of a successful `GET /questions` response. -/
def QuestionsResp.totalOf : QuestionsResp → Option Nat
  | .ok _ t _ _ => some t
  | _ => none

/-- Whether a `GET /questions` outcome is an exception escaping the handler. -/
def QuestionsResp.isUnhandled : QuestionsResp → Bool
  | .unhandled _ => true
  | _ => false

/-- Handler of `GET /questions` (`get_questions`): loads all questions in id
order, slices the requested page (`start = (page-1)*10`, `end = start+10`),
aborts with 404 on an empty slice, and otherwise answers with the page, the
unpaginated total, the category dict and the page's common category.  The
handler has no `try`/`except`, so a `KeyError` from `get_common_category`
escapes as `unhandled`. -/
def get_questions (st : Store) (page : Int) : QuestionsResp :=
  let questions := sortById st.questions
  let categories := catDict st.categories
  let start := (page - 1) * QUESTIONS_PER_PAGE
  let stop := start + QUESTIONS_PER_PAGE
  let selected := pySlice questions start stop
  if selected = [] then .notFound
  else
    match get_common_category categories selected with
    | .ok cur => .ok selected questions.length categories cur
    | .error e => .unhandled e

/-- Response of `DELETE /questions/<id>`. -/
inductive DeleteResp where
  | ok (question_id : Int)
  | unprocessable
deriving DecidableEq, Repr

/-- Handler of `DELETE /questions/<id>` (`delete_question`): looks the row up
by primary key and deletes it.  The whole body runs inside `try`/`except
Exception`, so the `abort(404)` raised when the row is absent is itself caught
and masked as `abort(422)`. -/
def delete_question (st : Store) (question_id : Int) : DeleteResp × Store :=
  match st.questions.find? (fun q => q.id == question_id) with
  | none => (.unprocessable, st)
  | some _ =>
    (.ok question_id, { st with questions := st.questions.eraseP (fun q => q.id == question_id) })

/-- The JSON body of `POST /questions`; `none` models an absent key (whose
access raises `KeyError`). -/
structure AddBody where
  question : Option String
  answer : Option String
  category : Option Int
  difficulty : Option Int
deriving DecidableEq, Repr

/-- Response of `POST /questions`. -/
inductive AddResp where
  | ok
  | unprocessable
deriving DecidableEq, Repr

/-- Modelled from the spec: the server-assigned unique id of a freshly
inserted question (`Question.insert` lives in the absent `models` module;
the spec only requires ids to be unique and server-assigned). -/
def nextId (st : Store) : Int :=
  (st.questions.foldl (fun m q => max m q.id) 0) + 1

/-- Handler of `POST /questions` (`add_question`): reads the four required
keys (a missing key raises `KeyError`), asserts that question and answer are
truthy (non-empty), and inserts the new row; every exception is caught and
reported as 422. -/
def add_question (st : Store) (b : AddBody) : AddResp × Store :=
  match b.question with
  | none => (.unprocessable, st)
  | some q =>
    if q = "" then (.unprocessable, st)
    else
      match b.answer with
      | none => (.unprocessable, st)
      | some a =>
        if a = "" then (.unprocessable, st)
        else
          match b.category, b.difficulty with
          | some c, some d =>
            (.ok, { st with questions :=
              st.questions ++ [{ id := nextId st, question := q, answer := a,
                                 category := c, difficulty := d }] })
          | _, _ => (.unprocessable, st)

/-- Does the second list start with the first one? -/
def startsWithB : List Char → List Char → Bool
  | [], _ => true
  | _ :: _, [] => false
  | a :: as, b :: bs => a == b && startsWithB as bs

/-- All suffixes of a list, longest first, down to `[]`. -/
def suffixesOf : List Char → List (List Char)
  | [] => [[]]
  | c :: cs => (c :: cs) :: suffixesOf cs

/-- SQL `LIKE` pattern matching: `%` matches any sequence of characters
(equivalently, the rest of the pattern must match some suffix), `_` matches
exactly one character, anything else matches itself.  (Escape sequences are
not used by the handler, which never puts a backslash in the pattern
skeleton.) -/
def likeMatch : List Char → List Char → Bool
  | [], s => s.isEmpty
  | p :: ps, s =>
    if p = '%' then (suffixesOf s).any (fun s2 => likeMatch ps s2)
    else
      match s with
      | [] => false
      | c :: cs => if p = '_' then likeMatch ps cs else (p == c && likeMatch ps cs)

/-- Modelled from the spec: "case-insensitive substring match of search_term
against question text" — `t` occurs contiguously inside `s` (both lists
already lower-cased by the caller). -/
def substrB (t s : List Char) : Bool :=
  (suffixesOf s).any (fun s2 => startsWithB t s2)

/-- SQL `ILIKE`: `LIKE` after lower-casing both pattern and subject. -/
def ilikeB (pat s : String) : Bool :=
  likeMatch (pat.data.map Char.toLower) (s.data.map Char.toLower)

/-- Response of `POST /search` and of `GET /categories/<id>/questions`
success/`POST /search` shapes (`questions`, `total_questions`,
`current_category`). -/
inductive SearchResp where
  | ok (questions : List Question) (total_questions : Nat) (current_category : String)
  | unprocessable
deriving DecidableEq, Repr

/-- Handler of `POST /search` (`query_questions`): reads `search_term` (a
missing key raises `KeyError`), filters the questions through
`ilike('%' + term + '%')`, and reports the matches together with their common
category; every exception — including a `KeyError` from
`get_common_category` — is caught and reported as 422. -/
def query_questions (st : Store) (body : Option String) : SearchResp :=
  match body with
  | none => .unprocessable
  | some search_query =>
    let filtered := st.questions.filter (fun q => ilikeB ("%" ++ search_query ++ "%") q.question)
    let categories := catDict st.categories
    match get_common_category categories filtered with
    | .ok cur => .ok filtered filtered.length cur
    | .error _ => .unprocessable

/-- Response of `GET /categories/<id>/questions`. -/
inductive CatResp where
  | ok (questions : List Question) (total_questions : Nat) (current_category : String)
  | notFound
deriving DecidableEq, Repr

/-- Handler of `GET /categories/<id>/questions` (`get_questions_by_category`):
filters questions by exact category id and reads the category's own label from
the dict (`categories[category_id]`, whose `KeyError` for an unknown id is
caught and reported as 404). -/
def get_questions_by_category (st : Store) (category_id : Int) : CatResp :=
  let filtered := st.questions.filter (fun q => q.category == category_id)
  let categories := catDict st.categories
  match dictLookup categories category_id with
  | some label => .ok filtered filtered.length label
  | none => .notFound

/-- Response of `POST /quizzes`: a question, the empty-string question sent
once every candidate was already seen, or a 422. -/
inductive QuizResp where
  | ok (question : Question)
  | okEmpty
  | unprocessable
deriving DecidableEq, Repr

/-- The candidate questions of a quiz round: all questions for category id 0,
otherwise the questions of that category. -/
def quizCandidates (st : Store) (category_id : Int) : List Question :=
  if category_id = 0 then st.questions
  else st.questions.filter (fun q => q.category == category_id)

/-- The scan of the quiz handler: the first question of the (shuffled) list
whose id is not among the previous questions, or the empty-string question. -/
def quizScan (previous : List Int) : List Question → QuizResp
  | [] => .okEmpty
  | q :: qs => if q.id ∈ previous then quizScan previous qs else .ok q

/-- Handler of `POST /quizzes` (`quiz`): reads `previous_questions` and
`quiz_category.id` from the body (`none` models a malformed body whose key
access raises and is reported as 422), loads the candidates, shuffles them and
scans for the first unseen question.  `random.shuffle` is modelled by the
`shuffle` argument, an arbitrary reordering function: the theorems hold for
every `shuffle` whose output is a permutation of its input. -/
def quiz (st : Store) (body : Option (List Int × Int))
    (shuffle : List Question → List Question) : QuizResp :=
  match body with
  | none => .unprocessable
  | some (previous_questions, category_id) =>
    quizScan previous_questions (shuffle (quizCandidates st category_id))

/-! ## Helper lemmas -/

theorem mem_insertById {x q : Question} {l : List Question} :
    x ∈ insertById q l ↔ x = q ∨ x ∈ l := by
  induction l with
  | nil => simp [insertById]
  | cons a l ih =>
    by_cases h : q.id ≤ a.id <;> simp [insertById, h, ih] <;> tauto

theorem mem_sortById {x : Question} {l : List Question} :
    x ∈ sortById l ↔ x ∈ l := by
  induction l with
  | nil => simp [sortById]
  | cons a l ih =>
    simp only [sortById, List.foldr_cons] at *
    rw [mem_insertById, ih, List.mem_cons]

theorem length_insertById (q : Question) (l : List Question) :
    (insertById q l).length = l.length + 1 := by
  induction l with
  | nil => simp [insertById]
  | cons a l ih =>
    by_cases h : q.id ≤ a.id <;> simp [insertById, h, ih]

theorem length_sortById (l : List Question) :
    (sortById l).length = l.length := by
  induction l with
  | nil => simp [sortById]
  | cons a l ih =>
    simp only [sortById, List.foldr_cons] at *
    rw [length_insertById, ih, List.length_cons]

theorem pySlice_subset {α : Type} (l : List α) (a b : Int) :
    pySlice l a b ⊆ l := by
  intro x hx
  simp only [pySlice] at hx
  exact List.drop_subset _ l (List.take_subset _ _ hx)

theorem pySlice_def {α : Type} (l : List α) (a b : Int) :
    pySlice l a b =
      (l.drop (if a < 0 then max (a + (l.length : Int)) 0 else min a (l.length : Int)).toNat).take
        ((if b < 0 then max (b + (l.length : Int)) 0 else min b (l.length : Int)) -
         (if a < 0 then max (a + (l.length : Int)) 0 else min a (l.length : Int))).toNat := rfl

theorem pySlice_empty_of_ge {α : Type} (l : List α) (a b : Int)
    (ha : 0 ≤ a) (hlen : (l.length : Int) ≤ a) : pySlice l a b = [] := by
  rw [pySlice_def, if_neg (show ¬ a < 0 by omega)]
  have hmin : min a (l.length : Int) = (l.length : Int) := by omega
  rw [hmin, show ((l.length : Int)).toNat = l.length by omega, List.drop_length, List.take_nil]

theorem pySlice_zero_stop {α : Type} (l : List α) (a : Int) :
    pySlice l a 0 = [] := by
  rw [pySlice_def, if_neg (show ¬ (0 : Int) < 0 by omega)]
  have h0 : min (0 : Int) (l.length : Int) = 0 := by omega
  rw [h0]
  have ha2 : ((0 : Int) -
      (if a < 0 then max (a + (l.length : Int)) 0 else min a (l.length : Int))).toNat = 0 := by
    split <;> omega
  rw [ha2, List.take_zero]

theorem mem_dedupAux {x : Int} : ∀ {l seen : List Int}, x ∈ dedupAux seen l → x ∈ l := by
  intro l
  induction l with
  | nil => intro seen h; simp [dedupAux] at h
  | cons a l ih =>
    intro seen h
    by_cases ha : a ∈ seen
    · simp only [dedupAux, if_pos ha] at h
      exact List.mem_cons_of_mem _ (ih h)
    · simp only [dedupAux, if_neg ha, List.mem_cons] at h
      rcases h with h | h
      · exact h ▸ List.mem_cons_self _ _
      · exact List.mem_cons_of_mem _ (ih h)

theorem foldl_best_mem (l : List Int) :
    ∀ (ds : List Int) (d : Int),
      ds.foldl (fun best x => if l.count x > l.count best then x else best) d ∈ d :: ds := by
  intro ds
  induction ds with
  | nil => intro d; simp
  | cons c cs ih =>
    intro d
    show List.foldl (fun best x => if l.count x > l.count best then x else best)
        ((fun best x => if l.count x > l.count best then x else best) d c) cs ∈ d :: c :: cs
    by_cases hc : l.count c > l.count d
    · have hfd : (fun (best x : Int) => if l.count x > l.count best then x else best) d c = c := by
        simp [hc]
      rw [hfd]
      exact List.mem_cons_of_mem _ (ih c)
    · have hfd : (fun (best x : Int) => if l.count x > l.count best then x else best) d c = d := by
        simp [hc]
      rw [hfd]
      rcases List.mem_cons.mp (ih d) with h | h
      · rw [h]; exact List.mem_cons_self _ _
      · exact List.mem_cons_of_mem _ (List.mem_cons_of_mem _ h)

theorem mostCommon_mem {l : List Int} {m : Int} (h : mostCommon l = some m) : m ∈ l := by
  unfold mostCommon at h
  rcases hd : dedupAux [] l with _ | ⟨d, ds⟩
  · rw [hd] at h; exact absurd h (by simp)
  · rw [hd] at h
    have hm := Option.some.inj h
    have : m ∈ d :: ds := hm ▸ foldl_best_mem l ds d
    exact mem_dedupAux (hd ▸ this)

theorem mostCommon_isSome {l : List Int} (h : l ≠ []) : ∃ m, mostCommon l = some m := by
  rcases l with _ | ⟨a, l⟩
  · exact absurd rfl h
  · unfold mostCommon
    simp only [dedupAux, List.not_mem_nil, if_false]
    exact ⟨_, rfl⟩

theorem dictLookup_eq_none_iff {l : List (Int × String)} {k : Int} :
    dictLookup l k = none ↔ k ∉ l.map Prod.fst := by
  induction l with
  | nil => simp [dictLookup]
  | cons p rest ih =>
    obtain ⟨k2, v⟩ := p
    simp only [dictLookup, List.map_cons, List.mem_cons]
    rcases hr : dictLookup rest k with _ | v2
    · have := ih.mp hr
      by_cases hk : k2 = k <;> simp [hk, this] <;> tauto
    · have : k ∈ rest.map Prod.fst := by
        by_contra hc
        rw [ih.mpr hc] at hr
        exact absurd hr (by simp)
      simp [this]

theorem dictLookup_catDict_some {cats : List Category} {k : Int} {v : String}
    (h : dictLookup (catDict cats) k = some v) :
    ∃ c ∈ cats, c.id = k ∧ v = lowerStr c.type := by
  induction cats with
  | nil => simp [catDict, dictLookup] at h
  | cons c rest ih =>
    simp only [catDict, List.map_cons, dictLookup] at h
    rcases hr : dictLookup (catDict rest) k with _ | v2
    · rw [show (rest.map fun c => (c.id, lowerStr c.type)) = catDict rest from rfl, hr] at h
      by_cases hk : c.id = k
      · rw [if_pos hk] at h
        exact ⟨c, List.mem_cons_self _ _, hk, (Option.some.inj h).symm⟩
      · rw [if_neg hk] at h
        exact absurd h (by simp)
    · rw [show (rest.map fun c => (c.id, lowerStr c.type)) = catDict rest from rfl, hr] at h
      obtain ⟨c2, hc2, hid, hv⟩ := ih (hr.trans (congrArg some (Option.some.inj h)))
      exact ⟨c2, List.mem_cons_of_mem _ hc2, hid, hv⟩

theorem dictLookup_catDict_isSome {cats : List Category} {k : Int}
    (h : ∃ c ∈ cats, c.id = k) : ∃ v, dictLookup (catDict cats) k = some v := by
  rcases hr : dictLookup (catDict cats) k with _ | v
  · exfalso
    have hk := dictLookup_eq_none_iff.mp hr
    obtain ⟨c, hc, hid⟩ := h
    exact hk (by simp only [catDict, List.map_map]; exact List.mem_map.mpr ⟨c, hc, hid⟩)
  · exact ⟨v, rfl⟩

theorem get_common_category_ok {cats : List Category} {qs : List Question}
    (hne : qs ≠ []) (hcov : ∀ q ∈ qs, ∃ c ∈ cats, c.id = q.category) :
    ∃ lbl, get_common_category (catDict cats) qs = .ok lbl := by
  unfold get_common_category
  rw [if_neg hne]
  obtain ⟨m, hm⟩ := mostCommon_isSome (show qs.map (fun q => q.category) ≠ [] by simpa using hne)
  obtain ⟨q, hq, hqc⟩ := List.mem_map.mp (mostCommon_mem hm)
  obtain ⟨c, hc, hcid⟩ := hcov q hq
  obtain ⟨v, hv⟩ := dictLookup_catDict_isSome ⟨c, hc, hcid.trans hqc⟩
  simp only [hm, hv]
  exact ⟨v, rfl⟩

theorem get_common_category_error_iff {categories : List (Int × String)} {qs : List Question} :
    (∃ e, get_common_category categories qs = .error e) ↔
      (qs ≠ [] ∧ ∃ m, mostCommon (qs.map fun q => q.category) = some m ∧
        dictLookup categories m = none) := by
  constructor
  · rintro ⟨e, he⟩
    unfold get_common_category at he
    by_cases h : qs = []
    · rw [if_pos h] at he
      exact absurd he (by simp)
    · rw [if_neg h] at he
      rcases hm : mostCommon (qs.map fun q => q.category) with _ | m
      · obtain ⟨m, hm2⟩ :=
          mostCommon_isSome (show qs.map (fun q => q.category) ≠ [] by simpa using h)
        rw [hm] at hm2
        exact absurd hm2 (by simp)
      · simp only [hm] at he
        rcases hd : dictLookup categories m with _ | v
        · exact ⟨h, m, hm, hd⟩
        · simp only [hd] at he
          exact absurd he (by simp)
  · rintro ⟨hne, m, hm, hd⟩
    unfold get_common_category
    rw [if_neg hne]
    simp only [hm, hd]
    exact ⟨"KeyError", rfl⟩

theorem quizScan_all_seen {prev : List Int} :
    ∀ {l : List Question}, (∀ q ∈ l, q.id ∈ prev) → quizScan prev l = .okEmpty := by
  intro l
  induction l with
  | nil => intro _; rfl
  | cons x xs ih =>
    intro h
    have hx : x.id ∈ prev := h x (List.mem_cons_self _ _)
    simp only [quizScan, if_pos hx]
    exact ih (fun q hq => h q (List.mem_cons_of_mem _ hq))

theorem quizScan_found_iff {prev : List Int} {l : List Question} {q : Question} :
    quizScan prev l = .ok q ↔ l.find? (fun x => !(decide (x.id ∈ prev))) = some q := by
  induction l with
  | nil => simp [quizScan]
  | cons x xs ih =>
    by_cases hx : x.id ∈ prev
    · rw [List.find?_cons_of_neg _ (by simp [hx])]
      simp only [quizScan, if_pos hx]
      exact ih
    · rw [List.find?_cons_of_pos _ (by simp [hx])]
      simp [quizScan, if_neg hx]

theorem nil_mem_suffixesOf : ∀ s : List Char, [] ∈ suffixesOf s := by
  intro s
  induction s with
  | nil => simp [suffixesOf]
  | cons c cs ih => simp only [suffixesOf, List.mem_cons]; exact Or.inr ih

theorem any_ext {α : Type} (l : List α) (f g : α → Bool) (h : ∀ x, f x = g x) :
    l.any f = l.any g := by
  induction l with
  | nil => rfl
  | cons a l ih => simp [List.any_cons, h a, ih]

theorem likeMatch_lit_append_percent {t : List Char}
    (hw : ∀ c ∈ t, c ≠ '%' ∧ c ≠ '_') :
    ∀ s, likeMatch (t ++ ['%']) s = startsWithB t s := by
  induction t with
  | nil =>
    intro s
    simp only [List.nil_append, likeMatch, if_pos rfl, startsWithB]
    exact List.any_eq_true.mpr ⟨[], nil_mem_suffixesOf s, rfl⟩
  | cons c ts ih =>
    intro s
    have hc := hw c (List.mem_cons_self _ _)
    have hts : ∀ c2 ∈ ts, c2 ≠ '%' ∧ c2 ≠ '_' := fun c2 h2 => hw c2 (List.mem_cons_of_mem _ h2)
    cases s with
    | nil =>
      simp only [List.cons_append, likeMatch, startsWithB]
      rw [if_neg hc.1]
    | cons x xs =>
      simp only [List.cons_append, likeMatch, startsWithB]
      rw [if_neg hc.1, if_neg hc.2, List.append_eq, ih hts xs]

theorem likeMatch_substrB {t : List Char}
    (hw : ∀ c ∈ t, c ≠ '%' ∧ c ≠ '_') (s : List Char) :
    likeMatch ('%' :: (t ++ ['%'])) s = substrB t s := by
  simp only [likeMatch, if_pos rfl, substrB]
  exact any_ext _ _ _ (fun s2 => likeMatch_lit_append_percent hw s2)

theorem pattern_data_lower (t : String) :
    (("%" ++ t ++ "%").data.map Char.toLower) = '%' :: (t.data.map Char.toLower) ++ ['%'] := by
  have h1 : ("%" ++ t ++ "%").data = '%' :: (t.data ++ ['%']) := by
    rw [String.data_append, String.data_append]
    rfl
  rw [h1]
  simp only [List.map_cons, List.map_append, List.map_cons, List.map_nil]
  rfl

/-! ## Claims -/

/-- C3: for every question id not present in the store, `DELETE
/questions/{id}` answers 422 Unprocessable (the `abort(404)` of the failed
lookup is caught by the handler's broad `except` and masked as Unprocessable)
and the stored questions are unchanged. -/
theorem c3_delete_missing (st : Store) (qid : Int)
    (h : ∀ q ∈ st.questions, q.id ≠ qid) :
    delete_question st qid = (DeleteResp.unprocessable, st) := by
  unfold delete_question
  have hf : st.questions.find? (fun q => q.id == qid) = none :=
    List.find?_eq_none.mpr (fun q hq => by simp [h q hq])
  simp only [hf]

/-- A store with a single question, used to instantiate C3. -/
def c3Store : Store := ⟨[⟨1, "What?", "That.", 1, 1⟩], [⟨1, "Science"⟩]⟩

/-- Witness for C3: deleting the absent id 42 answers 422 and leaves the
store unchanged. -/
theorem c3_delete_missing_witness :
    delete_question c3Store 42 = (DeleteResp.unprocessable, c3Store) :=
  c3_delete_missing c3Store 42 (by decide)

/-- C6: for every `POST /questions` body with a missing required field or an
empty question or answer text, the handler answers 422 and inserts nothing
(the store is unchanged). -/
theorem c6_add_invalid (st : Store) (b : AddBody)
    (h : b.question = none ∨ b.question = some "" ∨ b.answer = none ∨ b.answer = some "" ∨
         b.category = none ∨ b.difficulty = none) :
    add_question st b = (AddResp.unprocessable, st) := by
  obtain ⟨oq, oa, oc, od⟩ := b
  rcases oq with _ | q
  · rfl
  · rcases oa with _ | a
    · by_cases hq : q = "" <;> simp [add_question, hq]
    · rcases oc with _ | c
      · by_cases hq : q = "" <;> by_cases ha : a = "" <;> simp [add_question, hq, ha]
      · rcases od with _ | d
        · by_cases hq : q = "" <;> by_cases ha : a = "" <;> simp [add_question, hq, ha]
        · have h2 : q = "" ∨ a = "" := by
            rcases h with h | h | h | h | h | h
            · exact absurd h (by simp)
            · exact Or.inl (Option.some.inj h)
            · exact absurd h (by simp)
            · exact Or.inr (Option.some.inj h)
            · exact absurd h (by simp)
            · exact absurd h (by simp)
          rcases h2 with h2 | h2
          · simp [add_question, h2]
          · by_cases hq : q = "" <;> simp [add_question, hq, h2]

/-- An empty store, used to instantiate C6. -/
def c6Store : Store := ⟨[], [⟨1, "Science"⟩]⟩

/-- Witness for C6: an empty question text is rejected with 422 and creates
no record. -/
theorem c6_add_invalid_witness :
    add_question c6Store ⟨some "", some "an answer", some 1, some 1⟩ =
      (AddResp.unprocessable, c6Store) :=
  c6_add_invalid c6Store ⟨some "", some "an answer", some 1, some 1⟩ (Or.inr (Or.inl rfl))

/-- C7: `GET /categories/{id}/questions` answers 404 when the id is not a key
of the category mapping (the `KeyError` is caught and reported as NotFound);
for a valid category — even one with zero questions — it succeeds and
`current_category` is that category's own lower-cased label, looked up
directly by id. -/
theorem c7_by_category (st : Store) (cid : Int) :
    ((∀ c ∈ st.categories, c.id ≠ cid) → get_questions_by_category st cid = CatResp.notFound)
    ∧ (∀ c ∈ st.categories, c.id = cid → (∀ c2 ∈ st.categories, c2.id = cid → c2 = c) →
        get_questions_by_category st cid =
          CatResp.ok (st.questions.filter (fun q => q.category == cid))
            (st.questions.filter (fun q => q.category == cid)).length
            (lowerStr c.type)) := by
  constructor
  · intro h
    have hn : dictLookup (catDict st.categories) cid = none := by
      rw [dictLookup_eq_none_iff]
      intro hmem
      simp only [catDict, List.map_map] at hmem
      obtain ⟨c, hc, hid⟩ := List.mem_map.mp hmem
      exact h c hc hid
    unfold get_questions_by_category
    simp only [hn]
  · intro c hc hcid huniq
    obtain ⟨v, hv⟩ := dictLookup_catDict_isSome ⟨c, hc, hcid⟩
    obtain ⟨c2, hc2, hc2id, hveq⟩ := dictLookup_catDict_some hv
    have he : c2 = c := huniq c2 hc2 hc2id
    subst he
    unfold get_questions_by_category
    simp only [hv]
    rw [hveq]

/-- A store with one category and no questions, used to instantiate C7. -/
def c7Store : Store := ⟨[], [⟨1, "Science"⟩]⟩

/-- Witness for C7: an unknown category id answers 404; the valid category 1
with zero questions answers success with an empty list and its own
lower-cased label. -/
theorem c7_by_category_witness :
    get_questions_by_category c7Store 5 = CatResp.notFound ∧
    get_questions_by_category c7Store 1 = CatResp.ok [] 0 "science" := by
  constructor
  · exact (c7_by_category c7Store 5).1 (by decide)
  · exact ((c7_by_category c7Store 1).2 ⟨1, "Science"⟩ (by decide) rfl (by decide)).trans
      (by decide)

/-- C8: for every search term matching zero questions, `POST /search` answers
success with an empty question list, `total_questions = 0` and
`current_category = ""`; an empty result set is not an error. -/
theorem c8_empty_search (st : Store) (t : String)
    (h : st.questions.filter (fun q => ilikeB ("%" ++ t ++ "%") q.question) = []) :
    query_questions st (some t) = SearchResp.ok [] 0 "" := by
  unfold query_questions
  simp only [h]
  rfl

/-- A store with one question, used to instantiate C8. -/
def c8Store : Store := ⟨[⟨1, "What is the title?", "x", 1, 1⟩], [⟨1, "Science"⟩]⟩

/-- Witness for C8: searching a term with no matches answers 200 with an
empty list and an empty current category. -/
theorem c8_empty_search_witness :
    query_questions c8Store (some "zzz") = SearchResp.ok [] 0 "" :=
  c8_empty_search c8Store "zzz" (by decide)

/-- C9: `GET /questions` answers 404 NotFound for every page whose computed
slice of the id-ordered question list is empty, and in particular for every
page `p ≥ 1` lying strictly beyond the last non-empty page. -/
theorem c9_page_beyond (st : Store) (page : Int) :
    (pySlice (sortById st.questions) ((page - 1) * 10) ((page - 1) * 10 + 10) = [] →
      get_questions st page = QuestionsResp.notFound)
    ∧ (1 ≤ page → (st.questions.length : Int) ≤ (page - 1) * 10 →
      get_questions st page = QuestionsResp.notFound) := by
  constructor
  · intro h
    unfold get_questions QUESTIONS_PER_PAGE
    simp only [h]
    rfl
  · intro h1 h2
    have hs : pySlice (sortById st.questions) ((page - 1) * 10) ((page - 1) * 10 + 10) = [] := by
      apply pySlice_empty_of_ge
      · omega
      · rw [length_sortById]
        exact h2
    unfold get_questions QUESTIONS_PER_PAGE
    simp only [hs]
    rfl

/-- A store with one question, used to instantiate C9. -/
def c9Store : Store := ⟨[⟨1, "What?", "That.", 1, 1⟩], [⟨1, "Science"⟩]⟩

/-- Witness for C9: with a single stored question, page 99 is beyond the last
page and answers 404. -/
theorem c9_page_beyond_witness : get_questions c9Store 99 = QuestionsResp.notFound :=
  (c9_page_beyond c9Store 99).2 (by decide) (by decide)

/-- A question of category 1 with the given id, used to build the C10 store. -/
def mkQ (i : Int) : Question := ⟨i, "What?", "That.", 1, 1⟩

/-- A store with fifteen questions (ids 1..15) of category 1. -/
def store15 : Store :=
  ⟨[mkQ 1, mkQ 2, mkQ 3, mkQ 4, mkQ 5, mkQ 6, mkQ 7, mkQ 8, mkQ 9, mkQ 10,
    mkQ 11, mkQ 12, mkQ 13, mkQ 14, mkQ 15], [⟨1, "General"⟩]⟩

/-- C10: page 0 always computes the empty slice `l[-10:0]` and answers 404;
but a negative page is interpreted by Python slice semantics relative to the
end of the list, so page `-1` on a store with more than 10 questions (here 15,
slice `l[-20:-10]`) answers success with questions of the id-ordered list
instead of an error. -/
theorem c10_negative_pages :
    (∀ st : Store, get_questions st 0 = QuestionsResp.notFound)
    ∧ get_questions store15 (-1) =
        QuestionsResp.ok [mkQ 1, mkQ 2, mkQ 3, mkQ 4, mkQ 5] 15 [(1, "general")] "general" := by
  constructor
  · intro st
    have e2 : ((0 : Int) - 1) * 10 + 10 = 0 := by norm_num
    simp only [get_questions, QUESTIONS_PER_PAGE, e2, pySlice_zero_stop]
    rfl
  · decide

/-- C2: for every `POST /quizzes` call with a well-formed body, and every
shuffle whose output is a permutation of the candidate questions (all
questions for category id 0, the questions of that category otherwise): if
every candidate's id is among `previous_questions` the handler answers the
empty-string question; otherwise the answered question is exactly the first
one of the shuffled order whose id is not among `previous_questions` — hence
its id is unseen, it is a stored question, and its category matches the
requested category when that is non-zero. -/
theorem c2_quiz (st : Store) (prev : List Int) (catId : Int)
    (sh : List Question → List Question)
    (hperm : (sh (quizCandidates st catId)).Perm (quizCandidates st catId)) :
    ((∀ q ∈ quizCandidates st catId, q.id ∈ prev) →
      quiz st (some (prev, catId)) sh = QuizResp.okEmpty)
    ∧ (∀ q : Question, quiz st (some (prev, catId)) sh = QuizResp.ok q ↔
        (sh (quizCandidates st catId)).find? (fun x => !(decide (x.id ∈ prev))) = some q)
    ∧ (∀ q : Question, quiz st (some (prev, catId)) sh = QuizResp.ok q →
        q.id ∉ prev ∧ q ∈ st.questions ∧ (catId ≠ 0 → q.category = catId)) := by
  refine ⟨?_, ?_, ?_⟩
  · intro h
    exact quizScan_all_seen (fun q hq => h q (hperm.mem_iff.mp hq))
  · intro q
    exact quizScan_found_iff
  · intro q hq
    have hf := quizScan_found_iff.mp hq
    have hmem2 : q ∈ quizCandidates st catId := hperm.mem_iff.mp (List.mem_of_find?_eq_some hf)
    refine ⟨?_, ?_, ?_⟩
    · have hp := List.find?_some hf
      simpa using hp
    · unfold quizCandidates at hmem2
      by_cases h0 : catId = 0
      · rw [if_pos h0] at hmem2
        exact hmem2
      · rw [if_neg h0] at hmem2
        exact List.mem_of_mem_filter hmem2
    · intro h0
      unfold quizCandidates at hmem2
      rw [if_neg h0] at hmem2
      simpa using List.of_mem_filter hmem2

/-- A store with two questions in two categories, used to instantiate C2. -/
def c2Store : Store :=
  ⟨[⟨1, "A?", "a", 1, 1⟩, ⟨2, "B?", "b", 2, 1⟩], [⟨1, "Science"⟩, ⟨2, "Art"⟩]⟩

/-- Witness for C2: with both question ids already seen, the quiz (here
shuffled by reversal) answers the empty-string question. -/
theorem c2_quiz_witness :
    quiz c2Store (some ([1, 2], 0)) List.reverse = QuizResp.okEmpty :=
  (c2_quiz c2Store [1, 2] 0 List.reverse (List.reverse_perm _)).1 (by decide)

/-- A store whose only question has a category id (99) that is not a key of
the category mapping, used against C1 and its `current_category` lookup. -/
def c1Store : Store := ⟨[⟨1, "What?", "That.", 99, 1⟩], [⟨1, "Science"⟩]⟩

/-- Counterexample to C1 as stated: at page 1 the slice of the id-ordered
list is non-empty, yet `GET /questions` does not return it (no success
response at all — the handler dies on the `KeyError` of the common-category
lookup). -/
theorem c1_counterexample :
    pySlice (sortById c1Store.questions) ((1 - 1) * 10) ((1 - 1) * 10 + 10) ≠ [] ∧
    (get_questions c1Store 1).pageOf = none := by decide

/-- C1 (amended): provided every stored question's category id is a key of
the category mapping (so that the common-category lookup cannot raise), for
every page `p ≥ 1` whose slice of the id-ascending question list at indices
`(p-1)*10 .. (p-1)*10+10` is non-empty, `GET /questions` returns exactly that
slice, `total_questions` equals the full unpaginated question count, and the
page holds exactly 10 questions unless it is the last page. -/
theorem c1_pagination (st : Store) (p : Int)
    (hp : 1 ≤ p)
    (hcat : ∀ q ∈ st.questions, ∃ c ∈ st.categories, c.id = q.category)
    (hne : pySlice (sortById st.questions) ((p - 1) * 10) ((p - 1) * 10 + 10) ≠ []) :
    (get_questions st p).pageOf =
        some (pySlice (sortById st.questions) ((p - 1) * 10) ((p - 1) * 10 + 10))
    ∧ (get_questions st p).totalOf = some st.questions.length
    ∧ ((pySlice (sortById st.questions) ((p - 1) * 10) ((p - 1) * 10 + 10)).length = 10 ∨
        (st.questions.length : Int) ≤ p * 10) := by
  have hcov : ∀ q ∈ pySlice (sortById st.questions) ((p - 1) * 10) ((p - 1) * 10 + 10),
      ∃ c ∈ st.categories, c.id = q.category :=
    fun q hq => hcat q (mem_sortById.mp (pySlice_subset _ _ _ hq))
  obtain ⟨lbl, hlbl⟩ := get_common_category_ok hne hcov
  have hresp : get_questions st p =
      QuestionsResp.ok (pySlice (sortById st.questions) ((p - 1) * 10) ((p - 1) * 10 + 10))
        (sortById st.questions).length (catDict st.categories) lbl := by
    simp only [get_questions, QUESTIONS_PER_PAGE]
    rw [if_neg hne]
    simp only [hlbl]
  refine ⟨?_, ?_, ?_⟩
  · rw [hresp]
    rfl
  · rw [hresp]
    simp only [QuestionsResp.totalOf, length_sortById]
  · have hnz : (pySlice (sortById st.questions) ((p - 1) * 10) ((p - 1) * 10 + 10)).length ≠ 0 :=
      fun h0 => hne (List.length_eq_zero.mp h0)
    have hL := length_sortById st.questions
    rw [pySlice_def, if_neg (show ¬ (p - 1) * 10 < 0 by omega),
        if_neg (show ¬ (p - 1) * 10 + 10 < 0 by omega),
        List.length_take, List.length_drop] at hnz ⊢
    omega

/-- A well-categorised one-question store, used to instantiate amended C1. -/
def c1wStore : Store := ⟨[⟨1, "What?", "That.", 1, 1⟩], [⟨1, "Science"⟩]⟩

/-- Witness for amended C1 at page 1 of a one-question store. -/
theorem c1_pagination_witness :
    (get_questions c1wStore 1).pageOf =
        some (pySlice (sortById c1wStore.questions) ((1 - 1) * 10) ((1 - 1) * 10 + 10))
    ∧ (get_questions c1wStore 1).totalOf = some c1wStore.questions.length
    ∧ ((pySlice (sortById c1wStore.questions) ((1 - 1) * 10) ((1 - 1) * 10 + 10)).length = 10 ∨
        (c1wStore.questions.length : Int) ≤ 1 * 10) :=
  c1_pagination c1wStore 1 (by decide) (by decide) (by decide)

/-- A store whose only question has category id 7, absent from the category
mapping, used against C4. -/
def c4Store : Store := ⟨[⟨1, "Why?", "Because.", 7, 2⟩], [⟨1, "Science"⟩]⟩

/-- Counterexample to C4 as stated: `GET /questions` raises an unhandled
`KeyError` (neither 404 nor 422) when the returned page holds a question
whose category id is not a key of the category mapping. -/
theorem c4_counterexample :
    get_questions c4Store 1 = QuestionsResp.unhandled "KeyError" := by decide

/-- C4 (amended): the handlers wrapped in `try`/`except` translate every
exception into 404 or 422, but `GET /questions` has no such wrapper: it ends
in an unhandled exception exactly when the computed page slice is non-empty
and the most common category id of the slice is not a key of the category
mapping. -/
theorem c4_unhandled_characterization (st : Store) (page : Int) :
    (get_questions st page).isUnhandled = true ↔
      (pySlice (sortById st.questions) ((page - 1) * 10) ((page - 1) * 10 + 10) ≠ [] ∧
       ∃ m, mostCommon ((pySlice (sortById st.questions) ((page - 1) * 10)
              ((page - 1) * 10 + 10)).map (fun q => q.category)) = some m ∧
            dictLookup (catDict st.categories) m = none) := by
  constructor
  · intro h
    simp only [get_questions, QUESTIONS_PER_PAGE] at h
    by_cases hs : pySlice (sortById st.questions) ((page - 1) * 10) ((page - 1) * 10 + 10) = []
    · rw [if_pos hs] at h
      exact absurd h (by simp [QuestionsResp.isUnhandled])
    · rw [if_neg hs] at h
      cases hg : get_common_category (catDict st.categories)
          (pySlice (sortById st.questions) ((page - 1) * 10) ((page - 1) * 10 + 10)) with
      | ok cur =>
        rw [hg] at h
        exact absurd h (by simp [QuestionsResp.isUnhandled])
      | error e =>
        exact get_common_category_error_iff.mp ⟨e, hg⟩
  · rintro ⟨hs, m, hm, hd⟩
    obtain ⟨e, he⟩ := get_common_category_error_iff.mpr ⟨hs, m, hm, hd⟩
    simp only [get_questions, QUESTIONS_PER_PAGE]
    rw [if_neg hs]
    simp only [he]
    rfl

/-- A store with one question and an empty category mapping, used to
instantiate amended C4. -/
def c4wStore : Store := ⟨[⟨1, "Who?", "Me.", 3, 1⟩], []⟩

/-- Witness for amended C4: with an empty category mapping and a non-empty
first page, `GET /questions` ends in an unhandled exception. -/
theorem c4_unhandled_witness : (get_questions c4wStore 1).isUnhandled = true :=
  (c4_unhandled_characterization c4wStore 1).mpr ⟨by decide, 3, by decide, by decide⟩

/-- A store holding the question text "abc", used against C5's substring
reading of the `ilike` pattern. -/
def c5Store : Store := ⟨[⟨1, "abc", "x", 1, 1⟩], [⟨1, "General"⟩]⟩

/-- Counterexample to C5 as stated: searching "a_c" returns the question
"abc" (the `_` of the `ilike` pattern matches any character) although "a_c"
is not a case-insensitive substring of "abc", so inclusion is not equivalent
to the substring relation for every search term. -/
theorem c5_counterexample :
    query_questions c5Store (some "a_c") =
      SearchResp.ok [⟨1, "abc", "x", 1, 1⟩] 1 "general" ∧
    substrB ("a_c".data.map Char.toLower) ("abc".data.map Char.toLower) = false := by decide

/-- C5 (amended): for every search term free of the SQL wildcards `%` and
`_`, a question is included in a successful `POST /search` result exactly
when the lower-cased term occurs as a substring of the lower-cased question
text (all questions, no pagination); and for all terms, two searches whose
terms agree up to letter case return identical responses (so "TITLE" and
"title" give the same result set). -/
theorem c5_search_amended :
    (∀ (st : Store) (t : String) (qs : List Question) (n : Nat) (cur : String),
      (∀ c ∈ t.data.map Char.toLower, c ≠ '%' ∧ c ≠ '_') →
      query_questions st (some t) = SearchResp.ok qs n cur →
      ∀ q : Question, q ∈ qs ↔ q ∈ st.questions ∧
        substrB (t.data.map Char.toLower) (q.question.data.map Char.toLower) = true)
    ∧ (∀ (st : Store) (t1 t2 : String),
        t1.data.map Char.toLower = t2.data.map Char.toLower →
        query_questions st (some t1) = query_questions st (some t2)) := by
  constructor
  · intro st t qs n cur hw hresp q
    have hik : ∀ s : String,
        ilikeB ("%" ++ t ++ "%") s =
          substrB (t.data.map Char.toLower) (s.data.map Char.toLower) := by
      intro s
      unfold ilikeB
      rw [pattern_data_lower]
      exact likeMatch_substrB hw _
    have hq : qs = st.questions.filter (fun q => ilikeB ("%" ++ t ++ "%") q.question) := by
      revert hresp
      simp only [query_questions]
      cases hg : get_common_category (catDict st.categories)
          (st.questions.filter (fun q => ilikeB ("%" ++ t ++ "%") q.question)) with
      | ok cur2 =>
        intro h
        obtain ⟨h1, h2, h3⟩ := SearchResp.ok.injEq .. |>.mp h
        exact h1.symm
      | error e =>
        intro h
        exact absurd h (by simp)
    rw [hq, List.mem_filter, hik q.question]
  · intro st t1 t2 h
    have hik2 : ∀ s : String, ilikeB ("%" ++ t1 ++ "%") s = ilikeB ("%" ++ t2 ++ "%") s := by
      intro s
      unfold ilikeB
      rw [pattern_data_lower, pattern_data_lower, h]
    simp only [query_questions]
    rw [List.filter_congr (fun q _ => hik2 q.question)]

/-- A store holding a question containing "title", used to instantiate
amended C5. -/
def c5wStore : Store := ⟨[⟨1, "What is the title of it?", "x", 1, 1⟩], [⟨1, "Entertainment"⟩]⟩

/-- Witness for amended C5: searching "TITLE" and "title" answer the same
response, and the question is included as the lower-cased term is a
substring of its lower-cased text. -/
theorem c5_search_amended_witness :
    query_questions c5wStore (some "TITLE") = query_questions c5wStore (some "title") ∧
    ((⟨1, "What is the title of it?", "x", 1, 1⟩ : Question) ∈
        [(⟨1, "What is the title of it?", "x", 1, 1⟩ : Question)] ↔
      (⟨1, "What is the title of it?", "x", 1, 1⟩ : Question) ∈ c5wStore.questions ∧
      substrB ("TITLE".data.map Char.toLower)
        ("What is the title of it?".data.map Char.toLower) = true) :=
  ⟨c5_search_amended.2 c5wStore "TITLE" "title" (by decide),
   c5_search_amended.1 c5wStore "TITLE" [⟨1, "What is the title of it?", "x", 1, 1⟩] 1
     "entertainment" (by decide) (by decide) ⟨1, "What is the title of it?", "x", 1, 1⟩⟩
